import Mathlib

/-!
Verification of the OpenROAD `gpl` global-placement orchestrator interface
(`src/gpl/include/gpl/Replace.h`) and the `odb` object factory
(`src/odb/include/odb/ZFactory.h`).

Real-valued quantities (`float` in the C++ sources) are modelled as rationals.
Components whose bodies live outside the repository sources are modelled from
the specification; their doc comments start with `Modelled from the spec:`.
-/

namespace Gpl

/-- Configuration state of the `gpl::Replace` orchestrator, mirroring the
private members declared in `Replace.h` (iteration caps, density and overflow
targets, penalty-coefficient bounds, mode flags, timing checkpoints). -/
structure ReplaceConfig where
  nesterovPlaceMaxIter : Int
  binGridCntX : Int
  binGridCntY : Int
  targetOverflow : ℚ
  density : ℚ
  minPhiCoef : ℚ
  maxPhiCoef : ℚ
  forceCPU : Bool
  timingDrivenMode : Bool
  routabilityDrivenMode : Bool
  uniformTargetDensityMode : Bool
  timingNetWeightMax : ℚ
  timingNetWeightOverflows : List Int
  deriving Repr, DecidableEq

/-- Modelled from the spec: the `ConfigurationError` report ("surfaced
immediately to the caller with the offending field and value"); the bodies of
the `Replace` setters are not in the repository sources, only their
declarations in `Replace.h`. -/
structure ConfigurationError where
  offendingField : String
  offendingValue : ℚ
  deriving Repr, DecidableEq

/-- Modelled from the spec: the body of `Replace::setTargetDensity`
(declaration at `Replace.h:160`) is not in the repository sources.  Per the
spec, a target density outside the valid range (0, 1] fails immediately with a
`ConfigurationError` (the value is neither clamped nor stored, the run does
not start); an in-range value is stored. -/
def setTargetDensity (c : ReplaceConfig) (d : ℚ) :
    Except ConfigurationError ReplaceConfig :=
  if d ≤ 0 ∨ 1 < d then Except.error ⟨"target_density", d⟩
  else Except.ok { c with density := d }

/-- Modelled from the spec: the body of `Replace::setNesterovPlaceMaxIter`
(declaration at `Replace.h:156`) is not in the repository sources.  Per the
spec a negative iteration cap fails immediately with a `ConfigurationError`. -/
def setNesterovPlaceMaxIter (c : ReplaceConfig) (iter : Int) :
    Except ConfigurationError ReplaceConfig :=
  if iter < 0 then Except.error ⟨"nesterov_place_max_iter", (iter : ℚ)⟩
  else Except.ok { c with nesterovPlaceMaxIter := iter }

/-- Modelled from the spec: the query reflecting the stored target density
when uniform-density mode is active (`Replace::getUniformTargetDensity`,
declaration at `Replace.h:168`; body not in the repository sources). -/
def getUniformTargetDensity (c : ReplaceConfig) : ℚ :=
  c.density

/-- A concrete configuration used to instantiate the theorems. -/
def sampleConfig : ReplaceConfig where
  nesterovPlaceMaxIter := 5000
  binGridCntX := 0
  binGridCntY := 0
  targetOverflow := 1/10
  density := 1
  minPhiCoef := 95/100
  maxPhiCoef := 105/100
  forceCPU := true
  timingDrivenMode := true
  routabilityDrivenMode := true
  uniformTargetDensityMode := true
  timingNetWeightMax := 19/10
  timingNetWeightOverflows := [79]

/-- State threaded through the Nesterov iteration loop: the current global
overflow, the density-penalty coefficient phi, and the movable coordinates. -/
structure NesterovState where
  overflow : ℚ
  phi : ℚ
  coords : List (ℚ × ℚ)
  deriving Repr, DecidableEq

/-- Modelled from the spec: the fuel-indexed iteration loop of
`Replace::doNesterovPlace` (declaration at `Replace.h:121`; body not in the
repository sources).  One `step` per iteration; the loop stops as soon as the
overflow drops to the target, or when the fuel (remaining iterations up to the
cap) is exhausted; it returns the iteration count together with the
best-effort final state. -/
def nesterovLoopAux (step : NesterovState → NesterovState) (targetOv : ℚ) :
    Nat → Nat → NesterovState → Nat × NesterovState
  | 0, i, s => (i, s)
  | fuel + 1, i, s =>
    let s' := step s
    if s'.overflow ≤ targetOv then (i + 1, s')
    else nesterovLoopAux step targetOv fuel (i + 1) s'

/-- Modelled from the spec: `Replace::doNesterovPlace(start_iter)` runs the
iteration loop from `startIter` up to the configured iteration cap. -/
def doNesterovPlace (step : NesterovState → NesterovState) (targetOv : ℚ)
    (maxIter startIter : Nat) (s : NesterovState) : Nat × NesterovState :=
  nesterovLoopAux step targetOv (maxIter - startIter) startIter s

/-- Modelled from the spec: the per-iteration adaptation of the density-penalty
coefficient phi (bounds configured via `Replace::setMinPhiCoef` and
`Replace::setMaxPhiCoef`, declarations at `Replace.h:165-166`; bodies not in
the repository sources).  Phi is relaxed when the overflow is already under
target, increased when the overflow is not decreasing fast enough, and the
result is bounded to [minPhiCoef, maxPhiCoef]. -/
def adaptPhiCoef (minPhiCoef maxPhiCoef targetOv prevOv curOv phi : ℚ) : ℚ :=
  let proposed :=
    if curOv ≤ targetOv then phi * (95/100)
    else if prevOv - curOv < prevOv * (1/100) then phi * (105/100)
    else phi
  max minPhiCoef (min maxPhiCoef proposed)

/-- Modelled from the spec: one Nesterov iteration combining an overflow
update `nextOv` and a coordinate update `move` with the phi adaptation of
`adaptPhiCoef`. -/
def nesterovStepPhi (minPhiCoef maxPhiCoef targetOv : ℚ)
    (nextOv : NesterovState → ℚ) (move : List (ℚ × ℚ) → List (ℚ × ℚ))
    (s : NesterovState) : NesterovState :=
  { overflow := nextOv s,
    phi := adaptPhiCoef minPhiCoef maxPhiCoef targetOv s.overflow (nextOv s)
      s.phi,
    coords := move s.coords }

/-- An instance of the placement model: lower-left coordinate, size, and the
fixed/movable flag (per the spec's data model; the `gpl::PlacerBase` instance
storage is not in the repository sources). -/
structure PlaceInstance where
  lx : ℚ
  ly : ℚ
  width : ℚ
  height : ℚ
  isFixed : Bool
  deriving Repr, DecidableEq

/-- The placement model: the instance list plus per-net weights (per the
spec's data model). -/
structure PlacementModel where
  insts : List PlaceInstance
  netWeights : List ℚ
  deriving Repr, DecidableEq

/-- Modelled from the spec: a position-writing phase of the engine (initial
placement, one optimizer iteration, incremental re-entry; bodies not in the
repository sources) writes new positions to movable instances only — fixed
instances are never moved.  `k` is the running instance index used to look up
the target position. -/
def movePlacementFrom (pos : Nat → ℚ × ℚ) :
    Nat → List PlaceInstance → List PlaceInstance
  | _, [] => []
  | k, inst :: rest =>
    (if inst.isFixed then inst
     else { inst with lx := (pos k).1, ly := (pos k).2 })
      :: movePlacementFrom pos (k + 1) rest

/-- Modelled from the spec: the routability inflation step (routability
configuration declared at `Replace.h:182-193`; bodies not in the repository
sources) — an instance in a congested bin has its width and height scaled by
the inflation ratio `r`; positions are never written. -/
def inflateInstancesFrom (congested : Nat → Bool) (r : ℚ) :
    Nat → List PlaceInstance → List PlaceInstance
  | _, [] => []
  | k, inst :: rest =>
    (if congested k then
      { inst with width := inst.width * r, height := inst.height * r }
     else inst) :: inflateInstancesFrom congested r (k + 1) rest

/-- Modelled from the spec: the timing reweighting applied at a checkpoint —
every net on or near a critical path has its weight raised multiplicatively by
`factor`, capped at the configured maximum net weight
(`Replace::setTimingNetWeightMax`, declaration at `Replace.h:196`); other
nets keep their weight. -/
def timingReweightFrom (critical : Nat → Bool) (factor maxW : ℚ) :
    Nat → List ℚ → List ℚ
  | _, [] => []
  | k, w :: rest =>
    (if critical k then min (w * factor) maxW else w)
      :: timingReweightFrom critical factor maxW (k + 1) rest

/-- Modelled from the spec: the per-iteration timing check — reweighting runs
only when timing-driven mode is on and the current overflow value is present
in the checkpoint list (`Replace::addTimingNetWeightOverflow`, declaration at
`Replace.h:195`). -/
def timingCheckReweight (timingDriven : Bool) (ckpts : List Int) (curOv : Int)
    (critical : Nat → Bool) (factor maxW : ℚ) (ws : List ℚ) : List ℚ :=
  if timingDriven && ckpts.contains curOv then
    timingReweightFrom critical factor maxW 0 ws
  else ws

/-- Modelled from the spec: the operations of the engine that touch the
placement model.  Initial placement, optimizer iterations and incremental
re-entry write positions of movable instances; routability inflation scales
the sizes of congested instances; timing reweighting changes net weights
only. -/
inductive EngineOp where
  | initialPlaceOp (pos : Nat → ℚ × ℚ)
  | nesterovStepOp (pos : Nat → ℚ × ℚ)
  | incrementalStepOp (pos : Nat → ℚ × ℚ)
  | routabilityInflateOp (congested : Nat → Bool) (r : ℚ)
  | timingReweightOp (timingDriven : Bool) (ckpts : List Int) (curOv : Int)
      (critical : Nat → Bool) (factor maxW : ℚ)

/-- Modelled from the spec: the effect of one engine operation on the
placement model. -/
def applyEngineOp (m : PlacementModel) : EngineOp → PlacementModel
  | .initialPlaceOp pos => { m with insts := movePlacementFrom pos 0 m.insts }
  | .nesterovStepOp pos => { m with insts := movePlacementFrom pos 0 m.insts }
  | .incrementalStepOp pos =>
    { m with insts := movePlacementFrom pos 0 m.insts }
  | .routabilityInflateOp congested r =>
    { m with insts := inflateInstancesFrom congested r 0 m.insts }
  | .timingReweightOp timingDriven ckpts curOv critical factor maxW =>
    let ws := timingCheckReweight timingDriven ckpts curOv critical factor
      maxW m.netWeights
    { m with netWeights := ws }

/-- Modelled from the spec: a run of the engine is an arbitrary sequence of
engine operations applied in order. -/
def runEngine (m : PlacementModel) (ops : List EngineOp) : PlacementModel :=
  ops.foldl applyEngineOp m

/-- The lower-left coordinates of all instances of a model, in order. -/
def coordsOf (m : PlacementModel) : List (ℚ × ℚ) :=
  m.insts.map (fun inst => (inst.lx, inst.ly))

/-- The orchestrator's engine state: the placement model (the database), the
configuration, and whether the derived solver objects (`pb_`, `nb_`, `ip_`,
`np_` in `Replace.h:212-218`) are currently built. -/
structure ReplaceEngineState where
  model : PlacementModel
  config : ReplaceConfig
  solverBuilt : Bool
  deriving Repr, DecidableEq

/-- Modelled from the spec: `Replace::reset` (declaration at `Replace.h:92`;
body not in the repository sources) tears down the derived solver objects so
internal state is rebuilt for a fresh run; the database model and the
configuration are kept. -/
def reset (s : ReplaceEngineState) : ReplaceEngineState :=
  { s with solverBuilt := false }

/-- Modelled from the spec: `Replace::doInitialPlace` (declaration at
`Replace.h:110`; body not in the repository sources).  Per its documentation
it first sets the center location for instances, then solves the B2B sparse
systems with BiCGSTAB; with the force-CPU override this is the deterministic
sequential path, modelled as a pure function `solve` of the centered model
and the configuration giving one coordinate per instance index.  The solved
coordinates are written to the movable instances. -/
def doInitialPlace (solve : PlacementModel → ReplaceConfig → Nat → ℚ × ℚ)
    (center : ℚ × ℚ) (s : ReplaceEngineState) : ReplaceEngineState :=
  let centeredInsts := movePlacementFrom (fun _ => center) 0 s.model.insts
  let centered : PlacementModel := { s.model with insts := centeredInsts }
  let placedInsts :=
    movePlacementFrom (solve centered s.config) 0 centeredInsts
  let placed : PlacementModel := { centered with insts := placedInsts }
  { s with model := placed, solverBuilt := true }

/-- Writes a list of coordinates to the instance list, one per instance in
order; missing coordinates leave the remaining instances unchanged. -/
def writeCoordsList : List (ℚ × ℚ) → List PlaceInstance → List PlaceInstance
  | _, [] => []
  | [], inst :: rest => inst :: rest
  | c :: cs, inst :: rest =>
    { inst with lx := c.1, ly := c.2 } :: writeCoordsList cs rest

/-- Writes optimizer coordinates back to the placement model. -/
def writeCoords (cs : List (ℚ × ℚ)) (m : PlacementModel) : PlacementModel :=
  { m with insts := writeCoordsList cs m.insts }

/-- Record of one optimization run: the coordinates the optimizer started
from, the iteration count, and the final coordinates. -/
structure RunRecord where
  startCoords : List (ℚ × ℚ)
  iterCount : Nat
  finalCoords : List (ℚ × ℚ)
  deriving Repr, DecidableEq

/-- Modelled from the spec: a full one-shot run — `doInitialPlace` followed
by the Nesterov loop from iteration 0; the loop starts from the
initial-placement coordinates and the final coordinates are written back to
the model. -/
def doPlacementRun (solve : PlacementModel → ReplaceConfig → Nat → ℚ × ℚ)
    (center : ℚ × ℚ) (step : NesterovState → NesterovState)
    (targetOv startOv phi0 : ℚ) (maxIter : Nat) (s : ReplaceEngineState) :
    RunRecord × ReplaceEngineState :=
  let s0 := doInitialPlace solve center s
  let ns : NesterovState :=
    { overflow := startOv, phi := phi0, coords := coordsOf s0.model }
  let r := doNesterovPlace step targetOv maxIter 0 ns
  ({ startCoords := ns.coords, iterCount := r.1, finalCoords := r.2.coords },
   { s0 with model := writeCoords r.2.coords s0.model })

/-- Modelled from the spec: `Replace::doIncrementalPlace` (declaration at
`Replace.h:94`; body not in the repository sources) re-enters the
optimization loop from the model's current coordinates; the initial-place
solver (`solve`, `center`) is held by the orchestrator but never invoked —
no fresh initial placement is solved. -/
def doIncrementalPlace (solve : PlacementModel → ReplaceConfig → Nat → ℚ × ℚ)
    (center : ℚ × ℚ) (step : NesterovState → NesterovState)
    (targetOv startOv phi0 : ℚ) (maxIter : Nat) (s : ReplaceEngineState) :
    RunRecord × ReplaceEngineState :=
  let ns : NesterovState :=
    { overflow := startOv, phi := phi0, coords := coordsOf s.model }
  let r := doNesterovPlace step targetOv maxIter 0 ns
  ({ startCoords := ns.coords, iterCount := r.1, finalCoords := r.2.coords },
   { s with model := writeCoords r.2.coords s.model, solverBuilt := true })

/-- A concrete solver function used to instantiate the theorems. -/
def sampleSolve (m : PlacementModel) (c : ReplaceConfig) (k : Nat) : ℚ × ℚ :=
  ((k : ℚ) * c.density, (m.insts.length : ℚ))

/-- A concrete fixed instance used to instantiate the theorems. -/
def sampleFixedInstance : PlaceInstance := ⟨2, 3, 4, 5, true⟩

/-- A concrete movable instance used to instantiate the theorems. -/
def sampleMovableInstance : PlaceInstance := ⟨0, 0, 1, 1, false⟩

/-- A concrete placement model used to instantiate the theorems. -/
def samplePlacementModel : PlacementModel where
  insts := [sampleFixedInstance, sampleMovableInstance]
  netWeights := [1, 1]

/-- A concrete engine-operation sequence exercising every kind of phase. -/
def sampleEngineOps : List EngineOp :=
  [EngineOp.initialPlaceOp (fun _ => (5, 5)),
   EngineOp.routabilityInflateOp (fun _ => true) 2,
   EngineOp.timingReweightOp true [79] 79 (fun _ => true) (3/2) (19/10),
   EngineOp.nesterovStepOp (fun _ => (9, 9)),
   EngineOp.incrementalStepOp (fun _ => (7, 8))]

/-- The core area rectangle (die/core geometry from the placement
database). -/
structure CoreArea where
  lx : ℚ
  ly : ℚ
  ux : ℚ
  uy : ℚ
  deriving Repr, DecidableEq

/-- The area of the core rectangle. -/
def coreRectArea (core : CoreArea) : ℚ :=
  (core.ux - core.lx) * (core.uy - core.ly)

/-- Modelled from the spec: the width of one bin of the uniform grid built by
the density model (grid dimensions configured via `Replace::setBinGridCnt`,
declaration at `Replace.h:158`; the density model itself is not in the
repository sources). -/
def binW (core : CoreArea) (cntX : Nat) : ℚ :=
  (core.ux - core.lx) / (cntX : ℚ)

/-- Modelled from the spec: the height of one bin of the uniform grid. -/
def binH (core : CoreArea) (cntY : Nat) : ℚ :=
  (core.uy - core.ly) / (cntY : ℚ)

/-- The area of one bin of the grid. -/
def binArea (core : CoreArea) (cntX cntY : Nat) : ℚ :=
  binW core cntX * binH core cntY

/-- The total area of all `cntX * cntY` bins of the grid. -/
def binGridTotalArea (core : CoreArea) (cntX cntY : Nat) : ℚ :=
  ∑ _i ∈ Finset.range cntX, ∑ _j ∈ Finset.range cntY, binArea core cntX cntY

/-- Membership of a point in bin `(i, j)`: bins are half-open rectangles laid
out in a uniform grid over the core area. -/
def pointInBin (core : CoreArea) (cntX cntY i j : Nat) (x y : ℚ) : Prop :=
  (core.lx + (i : ℚ) * binW core cntX ≤ x ∧
    x < core.lx + ((i : ℚ) + 1) * binW core cntX) ∧
  (core.ly + (j : ℚ) * binH core cntY ≤ y ∧
    y < core.ly + ((j : ℚ) + 1) * binH core cntY)

/-- A concrete core area used to instantiate the theorems. -/
def sampleCore : CoreArea := ⟨0, 0, 4, 4⟩

/-- A concrete engine state used to instantiate the theorems. -/
def sampleEngineState : ReplaceEngineState where
  model := samplePlacementModel
  config := sampleConfig
  solverBuilt := false

/-- A concrete iteration step used to instantiate the loop theorems: it halves
the overflow each iteration and leaves phi and the coordinates alone. -/
def sampleStep (s : NesterovState) : NesterovState :=
  { s with overflow := s.overflow / 2 }

/-- A concrete loop state used to instantiate the loop theorems. -/
def sampleNesterovState : NesterovState where
  overflow := 1
  phi := 1
  coords := [(0, 0), (1, 1)]

end Gpl

namespace Odb

/-- The `Z_OK` return code of the odb Z interface layer (`ZFactory.h` return
convention; numeric value defined outside the repository sources, modelled as
a fixed integer distinct from the error codes). -/
def Z_OK : Int := 0

/-- The `Z_ERROR_NO_INTERFACE` return code (`ZFactory.h` return convention;
numeric value defined outside the repository sources, modelled as a fixed
integer distinct from `Z_OK`). -/
def Z_ERROR_NO_INTERFACE : Int := 1

/-- Interface identifiers (`ZInterfaceID`), modelled as naturals. -/
abbrev ZInterfaceID := Nat

/-- The fate of the `IMPL` object allocated by `ZFactoryImpl::create`: either
live with its `_context` field set, or deleted. -/
inductive ObjectState where
  | live (context : Nat)
  | deleted
  deriving Repr, DecidableEq

/-- The observable outcome of `ZFactoryImpl::create`: the returned status
code, the value stored through the output pointer `p` (`none` models
`nullptr`), and the state of the allocated object. -/
structure CreateOutcome where
  ret : Int
  pOut : Option Nat
  obj : ObjectState
  deriving Repr, DecidableEq

/-- Shallow embedding of `ZFactoryImpl::create` (`ZFactory.h:67-78`).  The
`new IMPL` allocation is modelled by a fresh address `addr`; `QueryInterface`,
whose implementation lives outside the repository sources, is the parameter
`qi`, mapping the object's address and the requested interface id to its
return status and the value it stores through `p`.  The code sets
`o->_context = context`, calls `o->QueryInterface(iid, p)`, and on any status
other than `Z_OK` deletes the object, nulls `*p` and returns
`Z_ERROR_NO_INTERFACE`. -/
def ZFactoryImpl.create (qi : Nat → ZInterfaceID → Int × Option Nat)
    (context : Nat) (iid : ZInterfaceID) (addr : Nat) : CreateOutcome :=
  let q := qi addr iid
  if q.1 = Z_OK then
    { ret := Z_OK, pOut := q.2, obj := ObjectState.live context }
  else
    { ret := Z_ERROR_NO_INTERFACE, pOut := none, obj := ObjectState.deleted }

end Odb

/-- **C1.** A target density outside the documented valid range (0, 1] makes
`setTargetDensity` fail immediately with a `ConfigurationError` carrying the
offending field and value, and the stored configuration is not changed
(nothing is clamped or stored); an in-range density is stored, and is
reflected by `getUniformTargetDensity` when uniform-density mode is active.
Likewise a negative iteration cap is rejected by `setNesterovPlaceMaxIter`. -/
theorem setTargetDensity_range_checked (c : Gpl.ReplaceConfig) (d : ℚ)
    (iter : Int) :
    (d ≤ 0 ∨ 1 < d →
      Gpl.setTargetDensity c d = Except.error ⟨"target_density", d⟩) ∧
    (0 < d → d ≤ 1 →
      Gpl.setTargetDensity c d = Except.ok { c with density := d } ∧
      (c.uniformTargetDensityMode = true →
        Gpl.getUniformTargetDensity { c with density := d } = d)) ∧
    (iter < 0 →
      Gpl.setNesterovPlaceMaxIter c iter =
        Except.error ⟨"nesterov_place_max_iter", (iter : ℚ)⟩) := by
  refine ⟨fun h => ?_, fun h0 h1 => ⟨?_, fun _ => rfl⟩, fun h => ?_⟩
  · simp only [Gpl.setTargetDensity, if_pos h]
  · have : ¬ (d ≤ 0 ∨ 1 < d) := by
      push_neg
      exact ⟨h0, h1⟩
    simp only [Gpl.setTargetDensity, if_neg this]
  · simp only [Gpl.setNesterovPlaceMaxIter, if_pos h]

/-- Witness for C1: `setTargetDensity 0` and `setTargetDensity (3/2)` fail
with `ConfigurationError`, `setTargetDensity (7/10)` succeeds and is reflected
by the query, and a negative iteration cap is rejected. -/
theorem setTargetDensity_range_checked_witness :
    Gpl.setTargetDensity Gpl.sampleConfig 0 =
      Except.error ⟨"target_density", 0⟩ ∧
    Gpl.setTargetDensity Gpl.sampleConfig (3/2) =
      Except.error ⟨"target_density", 3/2⟩ ∧
    Gpl.setTargetDensity Gpl.sampleConfig (7/10) =
      Except.ok { Gpl.sampleConfig with density := 7/10 } ∧
    Gpl.getUniformTargetDensity { Gpl.sampleConfig with density := 7/10 }
      = 7/10 ∧
    Gpl.setNesterovPlaceMaxIter Gpl.sampleConfig (-1) =
      Except.error ⟨"nesterov_place_max_iter", (-1 : ℚ)⟩ := by
  have h0 := setTargetDensity_range_checked Gpl.sampleConfig 0 (-1)
  have h15 := setTargetDensity_range_checked Gpl.sampleConfig (3/2) (-1)
  have h07 := setTargetDensity_range_checked Gpl.sampleConfig (7/10) (-1)
  refine ⟨h0.1 (Or.inl le_rfl), h15.1 (Or.inr (by norm_num)), ?_, ?_, ?_⟩
  · exact (h07.2.1 (by norm_num) (by norm_num)).1
  · exact (h07.2.1 (by norm_num) (by norm_num)).2 rfl
  · exact h0.2.2 (by norm_num)

/-- **C10.** `ZFactoryImpl::create` returns `Z_OK` with `*p` holding the newly
created implementation object (its `_context` set, the object kept alive)
exactly when that object's `QueryInterface` for the requested interface id
returns `Z_OK`; otherwise the object is deleted, `*p` is set to `nullptr`,
and the result is `Z_ERROR_NO_INTERFACE`.  The hypothesis states the
`QueryInterface` output contract: on success it stores the object itself. -/
theorem ZFactoryImpl_create_spec
    (qi : Nat → Odb.ZInterfaceID → Int × Option Nat)
    (context : Nat) (iid : Odb.ZInterfaceID) (addr : Nat)
    (hqi : (qi addr iid).1 = Odb.Z_OK → (qi addr iid).2 = some addr) :
    (Odb.ZFactoryImpl.create qi context iid addr =
        { ret := Odb.Z_OK, pOut := some addr,
          obj := Odb.ObjectState.live context }
      ↔ (qi addr iid).1 = Odb.Z_OK) ∧
    ((qi addr iid).1 ≠ Odb.Z_OK →
      Odb.ZFactoryImpl.create qi context iid addr =
        { ret := Odb.Z_ERROR_NO_INTERFACE, pOut := none,
          obj := Odb.ObjectState.deleted }) := by
  constructor
  · constructor
    · intro h
      by_contra hq
      simp only [Odb.ZFactoryImpl.create, if_neg hq] at h
      have := congrArg Odb.CreateOutcome.ret h
      simp only at this
      exact absurd this (by norm_num [Odb.Z_ERROR_NO_INTERFACE, Odb.Z_OK])
    · intro hq
      simp only [Odb.ZFactoryImpl.create, if_pos hq, hqi hq]
  · intro hq
    simp only [Odb.ZFactoryImpl.create, if_neg hq]

/-- A concrete `QueryInterface` used to instantiate the factory theorem: it
accepts interface id 7 (storing the object's address) and rejects everything
else. -/
def Odb.sampleQueryInterface (a : Nat) (i : Odb.ZInterfaceID) :
    Int × Option Nat :=
  if i = 7 then (Odb.Z_OK, some a) else (Odb.Z_ERROR_NO_INTERFACE, none)

/-- Witness for C10: with `sampleQueryInterface`, `create` succeeds on
interface id 7 and fails with `Z_ERROR_NO_INTERFACE` on id 8. -/
theorem ZFactoryImpl_create_spec_witness :
    (Odb.ZFactoryImpl.create Odb.sampleQueryInterface 42 7 99 =
      { ret := Odb.Z_OK, pOut := some 99, obj := Odb.ObjectState.live 42 }
      ↔ (Odb.sampleQueryInterface 99 7).1 = Odb.Z_OK) ∧
    ((Odb.sampleQueryInterface 99 8).1 ≠ Odb.Z_OK →
      Odb.ZFactoryImpl.create Odb.sampleQueryInterface 42 8 99 =
      { ret := Odb.Z_ERROR_NO_INTERFACE, pOut := none,
        obj := Odb.ObjectState.deleted }) :=
  ⟨(ZFactoryImpl_create_spec Odb.sampleQueryInterface 42 7 99
      (by intro h; simp [Odb.sampleQueryInterface])).1,
   (ZFactoryImpl_create_spec Odb.sampleQueryInterface 42 8 99
      (by intro h
          simp [Odb.sampleQueryInterface, Odb.Z_OK,
            Odb.Z_ERROR_NO_INTERFACE] at h)).2⟩

/-- Helper: over `fuel` remaining iterations starting at index `i`, the loop
returns an index between `i` and `i + fuel`, and either the final overflow is
at the target or the fuel was exhausted. -/
theorem nesterovLoopAux_bound (step : Gpl.NesterovState → Gpl.NesterovState)
    (targetOv : ℚ) :
    ∀ fuel i s,
      i ≤ (Gpl.nesterovLoopAux step targetOv fuel i s).1 ∧
      (Gpl.nesterovLoopAux step targetOv fuel i s).1 ≤ i + fuel ∧
      ((Gpl.nesterovLoopAux step targetOv fuel i s).2.overflow ≤ targetOv ∨
        (Gpl.nesterovLoopAux step targetOv fuel i s).1 = i + fuel) := by
  intro fuel
  induction fuel with
  | zero =>
    intro i s
    exact ⟨le_rfl, by simp [Gpl.nesterovLoopAux], Or.inr (by simp [Gpl.nesterovLoopAux])⟩
  | succ n ih =>
    intro i s
    by_cases h : (step s).overflow ≤ targetOv
    · simp only [Gpl.nesterovLoopAux, if_pos h]
      exact ⟨Nat.le_succ i, by omega, Or.inl h⟩
    · simp only [Gpl.nesterovLoopAux, if_neg h]
      obtain ⟨h1, h2, h3⟩ := ih (i + 1) (step s)
      refine ⟨by omega, by omega, ?_⟩
      rcases h3 with h3 | h3
      · exact Or.inl h3
      · exact Or.inr (by omega)

/-- Helper: the loop preserves any invariant preserved by one step. -/
theorem nesterovLoopAux_invariant (P : Gpl.NesterovState → Prop)
    (step : Gpl.NesterovState → Gpl.NesterovState) (targetOv : ℚ)
    (hstep : ∀ s, P s → P (step s)) :
    ∀ fuel i s, P s → P (Gpl.nesterovLoopAux step targetOv fuel i s).2 := by
  intro fuel
  induction fuel with
  | zero => intro i s hs; simpa [Gpl.nesterovLoopAux] using hs
  | succ n ih =>
    intro i s hs
    by_cases h : (step s).overflow ≤ targetOv
    · simp only [Gpl.nesterovLoopAux, if_pos h]
      exact hstep s hs
    · simp only [Gpl.nesterovLoopAux, if_neg h]
      exact ih (i + 1) (step s) (hstep s hs)

/-- **C2.** Every run of the iterative optimizer terminates: `doNesterovPlace`
returns an iteration count never exceeding the iteration cap, and either the
final overflow is at most the target (success) or the loop stopped at exactly
`maxIter` iterations; in both cases a well-formed iteration count and a
best-effort final state are returned. -/
theorem doNesterovPlace_terminates (step : Gpl.NesterovState → Gpl.NesterovState)
    (targetOv : ℚ) (maxIter startIter : Nat) (s : Gpl.NesterovState)
    (h : startIter ≤ maxIter) :
    (Gpl.doNesterovPlace step targetOv maxIter startIter s).1 ≤ maxIter ∧
    ((Gpl.doNesterovPlace step targetOv maxIter startIter s).2.overflow
        ≤ targetOv ∨
      (Gpl.doNesterovPlace step targetOv maxIter startIter s).1 = maxIter) := by
  obtain ⟨h1, h2, h3⟩ :=
    nesterovLoopAux_bound step targetOv (maxIter - startIter) startIter s
  unfold Gpl.doNesterovPlace
  constructor
  · omega
  · rcases h3 with h3 | h3
    · exact Or.inl h3
    · exact Or.inr (by omega)

/-- Witness for C2: the loop on the sample step from iteration 0 with a cap
of 5 iterations and a target overflow of 1/10. -/
theorem doNesterovPlace_terminates_witness :
    (Gpl.doNesterovPlace Gpl.sampleStep (1/10) 5 0 Gpl.sampleNesterovState).1
        ≤ 5 ∧
    ((Gpl.doNesterovPlace Gpl.sampleStep (1/10) 5 0
          Gpl.sampleNesterovState).2.overflow ≤ 1/10 ∨
      (Gpl.doNesterovPlace Gpl.sampleStep (1/10) 5 0
          Gpl.sampleNesterovState).1 = 5) :=
  doNesterovPlace_terminates Gpl.sampleStep (1/10) 5 0 Gpl.sampleNesterovState
    (by decide)

/-- **C3.** The density-penalty coefficient phi stays within the configured
interval [minPhiCoef, maxPhiCoef]: every per-iteration adaptation step lands
in that interval, and consequently in a full optimizer run whose iterations
adapt phi through `adaptPhiCoef`, the final phi is still in the interval
whenever the starting phi is. -/
theorem phi_stays_within_bounds (minC maxC targetOv prevOv curOv phi : ℚ)
    (nextOv : Gpl.NesterovState → ℚ) (move : List (ℚ × ℚ) → List (ℚ × ℚ))
    (maxIter startIter : Nat) (s : Gpl.NesterovState)
    (hminmax : minC ≤ maxC) (hs : minC ≤ s.phi ∧ s.phi ≤ maxC) :
    (minC ≤ Gpl.adaptPhiCoef minC maxC targetOv prevOv curOv phi ∧
      Gpl.adaptPhiCoef minC maxC targetOv prevOv curOv phi ≤ maxC) ∧
    (minC ≤ (Gpl.doNesterovPlace
        (Gpl.nesterovStepPhi minC maxC targetOv nextOv move) targetOv
        maxIter startIter s).2.phi ∧
      (Gpl.doNesterovPlace
        (Gpl.nesterovStepPhi minC maxC targetOv nextOv move) targetOv
        maxIter startIter s).2.phi ≤ maxC) := by
  have hclamp : ∀ p c f : ℚ,
      minC ≤ Gpl.adaptPhiCoef minC maxC targetOv p c f ∧
        Gpl.adaptPhiCoef minC maxC targetOv p c f ≤ maxC := by
    intro p c f
    unfold Gpl.adaptPhiCoef
    exact ⟨le_max_left _ _, max_le hminmax (min_le_left _ _)⟩
  refine ⟨hclamp prevOv curOv phi, ?_⟩
  exact nesterovLoopAux_invariant
    (fun t => minC ≤ t.phi ∧ t.phi ≤ maxC)
    (Gpl.nesterovStepPhi minC maxC targetOv nextOv move) targetOv
    (fun t _ => hclamp t.overflow (nextOv t) t.phi)
    (maxIter - startIter) startIter s hs

/-- Witness for C3: concrete bounds [95/100, 105/100], the sample state and a
constant overflow update. -/
theorem phi_stays_within_bounds_witness :
    ((95/100 : ℚ) ≤ Gpl.adaptPhiCoef (95/100) (105/100) (1/10) 1 (1/2) 1 ∧
      Gpl.adaptPhiCoef (95/100) (105/100) (1/10) 1 (1/2) 1 ≤ 105/100) ∧
    ((95/100 : ℚ) ≤ (Gpl.doNesterovPlace
        (Gpl.nesterovStepPhi (95/100) (105/100) (1/10) (fun t => t.overflow / 2)
          id) (1/10) 5 0 Gpl.sampleNesterovState).2.phi ∧
      (Gpl.doNesterovPlace
        (Gpl.nesterovStepPhi (95/100) (105/100) (1/10) (fun t => t.overflow / 2)
          id) (1/10) 5 0 Gpl.sampleNesterovState).2.phi ≤ 105/100) :=
  phi_stays_within_bounds (95/100) (105/100) (1/10) 1 (1/2) 1
    (fun t => t.overflow / 2) id 5 0 Gpl.sampleNesterovState (by norm_num)
    ⟨by norm_num [Gpl.sampleNesterovState], by norm_num [Gpl.sampleNesterovState]⟩

/-- Helper: a fixed instance is returned unchanged by any position-writing
phase. -/
theorem movePlacementFrom_fixed (pos : Nat → ℚ × ℚ) :
    ∀ (l : List Gpl.PlaceInstance) (j k : Nat) (inst : Gpl.PlaceInstance),
      l[k]? = some inst → inst.isFixed = true →
      (Gpl.movePlacementFrom pos j l)[k]? = some inst := by
  intro l
  induction l with
  | nil => intro j k inst h _; simp at h
  | cons a t ih =>
    intro j k inst h hf
    cases k with
    | zero =>
      simp only [List.getElem?_cons_zero, Option.some.injEq] at h
      subst h
      simp [Gpl.movePlacementFrom, hf]
    | succ n =>
      simp only [List.getElem?_cons_succ] at h
      simpa [Gpl.movePlacementFrom] using ih (j + 1) n inst h hf

/-- Helper: the inflation step preserves every instance's position and fixed
flag (only width/height change, and only for congested instances). -/
theorem inflateInstancesFrom_keeps_position (congested : Nat → Bool) (r : ℚ) :
    ∀ (l : List Gpl.PlaceInstance) (j k : Nat) (inst : Gpl.PlaceInstance),
      l[k]? = some inst →
      ∃ inst', (Gpl.inflateInstancesFrom congested r j l)[k]? = some inst' ∧
        inst'.lx = inst.lx ∧ inst'.ly = inst.ly ∧
        inst'.isFixed = inst.isFixed := by
  intro l
  induction l with
  | nil => intro j k inst h; simp at h
  | cons a t ih =>
    intro j k inst h
    cases k with
    | zero =>
      simp only [List.getElem?_cons_zero, Option.some.injEq] at h
      subst h
      refine ⟨if congested j then
          { a with width := a.width * r, height := a.height * r }
        else a, ?_, ?_, ?_, ?_⟩
      · simp only [Gpl.inflateInstancesFrom, List.getElem?_cons_zero]
      · by_cases hc : congested j = true <;> simp [hc]
      · by_cases hc : congested j = true <;> simp [hc]
      · by_cases hc : congested j = true <;> simp [hc]
    | succ n =>
      simp only [List.getElem?_cons_succ] at h
      obtain ⟨i', h1, h2, h3, h4⟩ := ih (j + 1) n inst h
      exact ⟨i', by simpa [Gpl.inflateInstancesFrom] using h1, h2, h3, h4⟩

/-- Helper: one engine operation preserves a fixed instance's position and
its fixed flag. -/
theorem applyEngineOp_keeps_fixed (m : Gpl.PlacementModel)
    (op : Gpl.EngineOp) (k : Nat) (inst : Gpl.PlaceInstance)
    (h : m.insts[k]? = some inst) (hf : inst.isFixed = true) :
    ∃ inst', (Gpl.applyEngineOp m op).insts[k]? = some inst' ∧
      inst'.lx = inst.lx ∧ inst'.ly = inst.ly ∧ inst'.isFixed = true := by
  cases op with
  | initialPlaceOp pos =>
    exact ⟨inst, movePlacementFrom_fixed pos m.insts 0 k inst h hf, rfl, rfl, hf⟩
  | nesterovStepOp pos =>
    exact ⟨inst, movePlacementFrom_fixed pos m.insts 0 k inst h hf, rfl, rfl, hf⟩
  | incrementalStepOp pos =>
    exact ⟨inst, movePlacementFrom_fixed pos m.insts 0 k inst h hf, rfl, rfl, hf⟩
  | routabilityInflateOp congested r =>
    obtain ⟨i', h1, h2, h3, h4⟩ :=
      inflateInstancesFrom_keeps_position congested r m.insts 0 k inst h
    exact ⟨i', h1, h2, h3, h4.trans hf⟩
  | timingReweightOp timingDriven ckpts curOv critical factor maxW =>
    exact ⟨inst, h, rfl, rfl, hf⟩

/-- **C4.** Fixed instances never move: for every instance whose fixed flag is
set and every sequence of engine operations (initial placement, optimizer
iterations, routability inflation, timing reweighting, incremental re-entry),
the instance's lower-left coordinate after the run equals its coordinate
before, and it is still fixed. -/
theorem fixed_instances_never_move (m : Gpl.PlacementModel)
    (ops : List Gpl.EngineOp) (k : Nat) (inst : Gpl.PlaceInstance)
    (h : m.insts[k]? = some inst) (hf : inst.isFixed = true) :
    ∃ inst', (Gpl.runEngine m ops).insts[k]? = some inst' ∧
      inst'.lx = inst.lx ∧ inst'.ly = inst.ly ∧ inst'.isFixed = true := by
  induction ops generalizing m inst with
  | nil => exact ⟨inst, by simpa [Gpl.runEngine] using h, rfl, rfl, hf⟩
  | cons op rest ih =>
    obtain ⟨i1, h1, h2, h3, h4⟩ := applyEngineOp_keeps_fixed m op k inst h hf
    obtain ⟨i2, g1, g2, g3, g4⟩ := ih (Gpl.applyEngineOp m op) i1 h1 h4
    exact ⟨i2, by simpa [Gpl.runEngine] using g1, g2.trans h2, g3.trans h3, g4⟩

/-- Witness for C4: in the sample model the fixed instance at index 0 keeps
its coordinate (2, 3) across an engine run exercising every operation kind. -/
theorem fixed_instances_never_move_witness :
    ∃ inst', (Gpl.runEngine Gpl.samplePlacementModel
        Gpl.sampleEngineOps).insts[0]? = some inst' ∧
      inst'.lx = Gpl.sampleFixedInstance.lx ∧
      inst'.ly = Gpl.sampleFixedInstance.ly ∧ inst'.isFixed = true :=
  fixed_instances_never_move Gpl.samplePlacementModel Gpl.sampleEngineOps 0
    Gpl.sampleFixedInstance rfl rfl

/-- **C5.** The routability inflation step mutates only instance
width/height: for every instance (fixed or movable), its lower-left
coordinate and its fixed flag before and after a routability check/inflate
phase are identical. -/
theorem routability_inflate_keeps_positions (m : Gpl.PlacementModel)
    (congested : Nat → Bool) (r : ℚ) (k : Nat) (inst : Gpl.PlaceInstance)
    (h : m.insts[k]? = some inst) :
    ∃ inst', (Gpl.applyEngineOp m
        (Gpl.EngineOp.routabilityInflateOp congested r)).insts[k]?
          = some inst' ∧
      inst'.lx = inst.lx ∧ inst'.ly = inst.ly ∧
      inst'.isFixed = inst.isFixed :=
  inflateInstancesFrom_keeps_position congested r m.insts 0 k inst h

/-- Witness for C5: the movable instance at index 1 of the sample model keeps
its coordinate (0, 0) across an inflate phase that inflates every instance. -/
theorem routability_inflate_keeps_positions_witness :
    ∃ inst', (Gpl.applyEngineOp Gpl.samplePlacementModel
        (Gpl.EngineOp.routabilityInflateOp (fun _ => true) 2)).insts[1]?
          = some inst' ∧
      inst'.lx = Gpl.sampleMovableInstance.lx ∧
      inst'.ly = Gpl.sampleMovableInstance.ly ∧
      inst'.isFixed = Gpl.sampleMovableInstance.isFixed :=
  routability_inflate_keeps_positions Gpl.samplePlacementModel
    (fun _ => true) 2 1 Gpl.sampleMovableInstance rfl

/-- Helper: elementwise description of the timing reweighting pass. -/
theorem timingReweightFrom_getElem (critical : Nat → Bool) (factor maxW : ℚ) :
    ∀ (ws : List ℚ) (j i : Nat),
      (Gpl.timingReweightFrom critical factor maxW j ws)[i]? =
        (ws[i]?).map
          (fun w => if critical (j + i) then min (w * factor) maxW else w) := by
  intro ws
  induction ws with
  | nil => intro j i; simp [Gpl.timingReweightFrom]
  | cons w t ih =>
    intro j i
    cases i with
    | zero => simp [Gpl.timingReweightFrom]
    | succ n =>
      simp only [Gpl.timingReweightFrom, List.getElem?_cons_succ]
      rw [ih (j + 1) n, show j + 1 + n = j + (n + 1) from by omega]

/-- **C6.** When timing-driven mode is enabled and the current overflow value
is present in the configured checkpoint list, the timing feedback strictly
increases the weight of at least one net on a critical path (any critical net
whose weight is still below the cap), every resulting net weight is capped at
the configured maximum net weight, and reweighting is cumulative: no net
weight ever decreases, so later checkpoints build on the current weights. -/
theorem timing_reweight_strict_increase (ckpts : List Int) (curOv : Int)
    (critical : Nat → Bool) (factor maxW : ℚ) (ws : List ℚ) (k : Nat) (w : ℚ)
    (hck : ckpts.contains curOv = true) (hfactor : 1 < factor)
    (hws : ∀ (i : Nat) (v : ℚ), ws[i]? = some v → 0 < v ∧ v ≤ maxW)
    (hk : ws[k]? = some w) (hcrit : critical k = true) (hlt : w < maxW) :
    (∃ w', (Gpl.timingCheckReweight true ckpts curOv critical factor maxW
        ws)[k]? = some w' ∧ w < w' ∧ w' ≤ maxW) ∧
    (∀ (i : Nat) (v : ℚ), (Gpl.timingCheckReweight true ckpts curOv critical factor maxW
        ws)[i]? = some v → v ≤ maxW) ∧
    (∀ (i : Nat) (u v : ℚ), ws[i]? = some u →
      (Gpl.timingCheckReweight true ckpts curOv critical factor maxW
        ws)[i]? = some v → u ≤ v) := by
  have hw0 : 0 < w := (hws k w hk).1
  have hrw : Gpl.timingCheckReweight true ckpts curOv critical factor maxW ws
      = Gpl.timingReweightFrom critical factor maxW 0 ws := by
    unfold Gpl.timingCheckReweight
    rw [hck]
    rfl
  have hget : ∀ i : Nat,
      (Gpl.timingReweightFrom critical factor maxW 0 ws)[i]? =
        (ws[i]?).map
          (fun x => if critical i then min (x * factor) maxW else x) := by
    intro i
    rw [timingReweightFrom_getElem]
    simp only [Nat.zero_add]
  refine ⟨?_, ?_, ?_⟩
  · refine ⟨min (w * factor) maxW, ?_, ?_, min_le_right _ _⟩
    · rw [hrw, hget, hk]
      simp [hcrit]
    · exact lt_min (by nlinarith) hlt
  · intro i v hv
    rw [hrw, hget] at hv
    cases hwi : ws[i]? with
    | none => rw [hwi] at hv; simp at hv
    | some u =>
      rw [hwi] at hv
      simp only [Option.map_some', Option.some.injEq] at hv
      subst hv
      by_cases hc : critical i = true
      · simp only [if_pos hc]
        exact min_le_right _ _
      · simp only [Bool.not_eq_true] at hc
        simp only [hc, Bool.false_eq_true, if_false]
        exact (hws i u hwi).2
  · intro i u v hu hv
    rw [hrw, hget, hu] at hv
    simp only [Option.map_some', Option.some.injEq] at hv
    subst hv
    by_cases hc : critical i = true
    · simp only [if_pos hc]
      have h0u : 0 < u := (hws i u hu).1
      exact le_min (by nlinarith) (hws i u hu).2
    · simp only [Bool.not_eq_true] at hc
      simp [hc]

/-- Witness for C6: two nets of weight 1, both critical, factor 3/2, cap
19/10, at checkpoint overflow 79 of the [79] list. -/
theorem timing_reweight_strict_increase_witness :
    (∃ w', (Gpl.timingCheckReweight true [79] 79 (fun _ => true) (3/2)
        (19/10) [1, 1])[0]? = some w' ∧ (1 : ℚ) < w' ∧ w' ≤ 19/10) ∧
    (∀ (i : Nat) (v : ℚ), (Gpl.timingCheckReweight true [79] 79 (fun _ => true) (3/2)
        (19/10) [1, 1])[i]? = some v → v ≤ 19/10) ∧
    (∀ (i : Nat) (u v : ℚ), (([1, 1] : List ℚ))[i]? = some u →
      (Gpl.timingCheckReweight true [79] 79 (fun _ => true) (3/2)
        (19/10) [1, 1])[i]? = some v → u ≤ v) :=
  timing_reweight_strict_increase [79] 79 (fun _ => true) (3/2) (19/10)
    [1, 1] 0 1 (by decide) (by norm_num)
    (by
      intro i v hv
      match i with
      | 0 =>
        simp only [List.getElem?_cons_zero, Option.some.injEq] at hv
        subst hv
        norm_num
      | 1 =>
        simp only [List.getElem?_cons_succ, List.getElem?_cons_zero,
          Option.some.injEq] at hv
        subst hv
        norm_num
      | n + 2 => simp at hv)
    (by simp) rfl (by norm_num)

/-- Helper: writing positions twice from the same starting index overwrites —
only the last write is visible (fixed instances are skipped by both). -/
theorem movePlacementFrom_overwrite (p q : Nat → ℚ × ℚ) :
    ∀ (l : List Gpl.PlaceInstance) (j : Nat),
      Gpl.movePlacementFrom p j (Gpl.movePlacementFrom q j l) =
        Gpl.movePlacementFrom p j l := by
  intro l
  induction l with
  | nil => intro j; rfl
  | cons a t ih =>
    intro j
    by_cases hf : a.isFixed = true
    · simp [Gpl.movePlacementFrom, hf, ih]
    · simp only [Bool.not_eq_true] at hf
      simp [Gpl.movePlacementFrom, hf, ih]

/-- **C7.** `reset()` followed by `doInitialPlace` on an unchanged model is
deterministic: running the pair a second time (on the state the first run
left behind) produces identical output coordinates, when the force-CPU
override is set.  The initial placement centers the instances first, so the
solve input — and hence its output — does not depend on the positions left by
the previous run. -/
theorem reset_initial_place_deterministic
    (solve : Gpl.PlacementModel → Gpl.ReplaceConfig → Nat → ℚ × ℚ)
    (center : ℚ × ℚ) (s : Gpl.ReplaceEngineState)
    (hcpu : s.config.forceCPU = true) :
    Gpl.coordsOf (Gpl.doInitialPlace solve center
      (Gpl.reset (Gpl.doInitialPlace solve center (Gpl.reset s)))).model =
    Gpl.coordsOf (Gpl.doInitialPlace solve center (Gpl.reset s)).model := by
  simp only [Gpl.doInitialPlace, Gpl.reset, Gpl.coordsOf,
    movePlacementFrom_overwrite]

/-- Witness for C7: the sample solver, center (2, 2) and the sample engine
state (whose configuration has the force-CPU flag set). -/
theorem reset_initial_place_deterministic_witness :
    Gpl.coordsOf (Gpl.doInitialPlace Gpl.sampleSolve (2, 2)
      (Gpl.reset (Gpl.doInitialPlace Gpl.sampleSolve (2, 2)
        (Gpl.reset Gpl.sampleEngineState)))).model =
    Gpl.coordsOf (Gpl.doInitialPlace Gpl.sampleSolve (2, 2)
      (Gpl.reset Gpl.sampleEngineState)).model :=
  reset_initial_place_deterministic Gpl.sampleSolve (2, 2)
    Gpl.sampleEngineState rfl

/-- Helper: the optimizer loop preserves the number of tracked coordinates
whenever each step does. -/
theorem doNesterovPlace_coords_length
    (step : Gpl.NesterovState → Gpl.NesterovState) (targetOv : ℚ)
    (maxIter startIter : Nat) (ns : Gpl.NesterovState)
    (hstep : ∀ t, (step t).coords.length = t.coords.length) :
    (Gpl.doNesterovPlace step targetOv maxIter startIter ns).2.coords.length
      = ns.coords.length := by
  unfold Gpl.doNesterovPlace
  exact nesterovLoopAux_invariant (fun t => t.coords.length = ns.coords.length)
    step targetOv (fun t ht => (hstep t).trans ht) (maxIter - startIter)
    startIter ns rfl

/-- Helper: reading back coordinates after writing a full-length coordinate
list returns exactly that list. -/
theorem writeCoordsList_coords :
    ∀ (cs : List (ℚ × ℚ)) (l : List Gpl.PlaceInstance),
      cs.length = l.length →
      (Gpl.writeCoordsList cs l).map (fun inst => (inst.lx, inst.ly)) = cs := by
  intro cs
  induction cs with
  | nil =>
    intro l h
    cases l with
    | nil => rfl
    | cons a t => simp at h
  | cons c cst ih =>
    intro l h
    cases l with
    | nil => simp at h
    | cons a t =>
      simp only [Gpl.writeCoordsList, List.map_cons]
      rw [ih t (by simpa using h)]

/-- Helper: `coordsOf` after `writeCoords` of a full-length list is that
list. -/
theorem coordsOf_writeCoords (cs : List (ℚ × ℚ)) (m : Gpl.PlacementModel)
    (h : cs.length = m.insts.length) :
    Gpl.coordsOf (Gpl.writeCoords cs m) = cs := by
  simpa [Gpl.coordsOf, Gpl.writeCoords] using
    writeCoordsList_coords cs m.insts h

/-- **C8.** An incremental re-run after a completed run re-enters the
optimization loop starting from the previously optimized positions: the
coordinates `doIncrementalPlace` hands to the optimizer equal the final
coordinates of the prior run; and `doIncrementalPlace` never invokes the
initial-place solver — its result is independent of the solver and center. -/
theorem incremental_starts_from_previous
    (solve solve' : Gpl.PlacementModel → Gpl.ReplaceConfig → Nat → ℚ × ℚ)
    (center center' : ℚ × ℚ)
    (step : Gpl.NesterovState → Gpl.NesterovState)
    (targetOv startOv phi0 : ℚ) (maxIter : Nat)
    (s s' : Gpl.ReplaceEngineState)
    (hstep : ∀ t, (step t).coords.length = t.coords.length) :
    ((Gpl.doIncrementalPlace solve center step targetOv startOv phi0 maxIter
        (Gpl.doPlacementRun solve center step targetOv startOv phi0 maxIter
          s).2).1.startCoords =
      (Gpl.doPlacementRun solve center step targetOv startOv phi0 maxIter
        s).1.finalCoords) ∧
    (Gpl.doIncrementalPlace solve center step targetOv startOv phi0 maxIter s'
      = Gpl.doIncrementalPlace solve' center' step targetOv startOv phi0
          maxIter s') := by
  constructor
  · simp only [Gpl.doPlacementRun, Gpl.doIncrementalPlace]
    refine coordsOf_writeCoords _ _ ?_
    rw [doNesterovPlace_coords_length step targetOv maxIter 0 _ hstep]
    simp [Gpl.coordsOf]
  · rfl

/-- Witness for C8: the sample solver against a constant solver, the sample
halving step (which keeps the coordinate count) and the sample engine
state. -/
theorem incremental_starts_from_previous_witness :
    ((Gpl.doIncrementalPlace Gpl.sampleSolve (1, 1) Gpl.sampleStep (1/10) 1 1
        20 (Gpl.doPlacementRun Gpl.sampleSolve (1, 1) Gpl.sampleStep (1/10) 1
          1 20 Gpl.sampleEngineState).2).1.startCoords =
      (Gpl.doPlacementRun Gpl.sampleSolve (1, 1) Gpl.sampleStep (1/10) 1 1 20
        Gpl.sampleEngineState).1.finalCoords) ∧
    (Gpl.doIncrementalPlace Gpl.sampleSolve (1, 1) Gpl.sampleStep (1/10) 1 1
        20 Gpl.sampleEngineState
      = Gpl.doIncrementalPlace (fun _ _ _ => (0, 0)) (3, 3) Gpl.sampleStep
          (1/10) 1 1 20 Gpl.sampleEngineState) :=
  incremental_starts_from_previous Gpl.sampleSolve (fun _ _ _ => (0, 0))
    (1, 1) (3, 3) Gpl.sampleStep (1/10) 1 1 20 Gpl.sampleEngineState
    Gpl.sampleEngineState (fun _ => rfl)

/-- Helper: every point of a half-open interval [a, b) falls in exactly one
of the `n` equal half-open subintervals — existence part. -/
theorem interval_index_exists (a b : ℚ) (n : Nat) (hn : n ≠ 0) (hab : a < b)
    (x : ℚ) (h1 : a ≤ x) (h2 : x < b) :
    ∃ i : Nat, i < n ∧ a + (i : ℚ) * ((b - a) / (n : ℚ)) ≤ x ∧
      x < a + ((i : ℚ) + 1) * ((b - a) / (n : ℚ)) := by
  have hnQ : (0 : ℚ) < (n : ℚ) := by exact_mod_cast Nat.pos_of_ne_zero hn
  have hnQ' : ((n : ℚ)) ≠ 0 := ne_of_gt hnQ
  have hw : (0 : ℚ) < (b - a) / (n : ℚ) := div_pos (by linarith) hnQ
  set w := (b - a) / (n : ℚ) with hwdef
  have hnw : (n : ℚ) * w = b - a := by
    rw [hwdef]
    field_simp
  have ht0 : (0 : ℚ) ≤ (x - a) / w := div_nonneg (by linarith) (le_of_lt hw)
  refine ⟨⌊(x - a) / w⌋₊, ?_, ?_, ?_⟩
  · rw [Nat.floor_lt ht0, div_lt_iff₀ hw]
    linarith
  · have hfl : ((⌊(x - a) / w⌋₊ : ℚ)) ≤ (x - a) / w := Nat.floor_le ht0
    have h4 : ((⌊(x - a) / w⌋₊ : ℚ)) * w ≤ x - a := by
      calc ((⌊(x - a) / w⌋₊ : ℚ)) * w ≤ ((x - a) / w) * w :=
            mul_le_mul_of_nonneg_right hfl (le_of_lt hw)
        _ = x - a := div_mul_cancel₀ _ (ne_of_gt hw)
    linarith
  · have hlt : (x - a) / w < ((⌊(x - a) / w⌋₊ : ℚ)) + 1 :=
      Nat.lt_floor_add_one _
    have h5 : x - a < (((⌊(x - a) / w⌋₊ : ℚ)) + 1) * w := by
      calc x - a = ((x - a) / w) * w :=
            (div_mul_cancel₀ _ (ne_of_gt hw)).symm
        _ < (((⌊(x - a) / w⌋₊ : ℚ)) + 1) * w :=
            mul_lt_mul_of_pos_right hlt hw
    linarith

/-- Helper: uniqueness of the subinterval index — no overlaps. -/
theorem interval_index_unique (a w : ℚ) (hw : 0 < w) (i i' : Nat) (x : ℚ)
    (h1 : a + (i : ℚ) * w ≤ x) (h2 : x < a + ((i : ℚ) + 1) * w)
    (h1' : a + (i' : ℚ) * w ≤ x) (h2' : x < a + ((i' : ℚ) + 1) * w) :
    i = i' := by
  have d1 : (i : ℚ) * w < ((i' : ℚ) + 1) * w := by linarith
  have d2 : (i' : ℚ) * w < ((i : ℚ) + 1) * w := by linarith
  have e1 : (i : ℚ) < (i' : ℚ) + 1 := (mul_lt_mul_right hw).mp d1
  have e2 : (i' : ℚ) < (i : ℚ) + 1 := (mul_lt_mul_right hw).mp d2
  have f1 : i < i' + 1 := by exact_mod_cast e1
  have f2 : i' < i + 1 := by exact_mod_cast e2
  omega

/-- **C9.** For every grid dimension configurable via `setBinGridCnt`, the
bins exactly tile the core area: the sum of all bin areas equals the core
area, every point of the (half-open) core rectangle lies in some bin of the
grid (no gaps), and no point lies in two distinct bins (no overlaps). -/
theorem bin_grid_tiles_core (core : Gpl.CoreArea) (cntX cntY : Nat)
    (hcntx : cntX ≠ 0) (hcnty : cntY ≠ 0)
    (hcx : core.lx < core.ux) (hcy : core.ly < core.uy) :
    Gpl.binGridTotalArea core cntX cntY = Gpl.coreRectArea core ∧
    (∀ x y : ℚ, core.lx ≤ x → x < core.ux → core.ly ≤ y → y < core.uy →
      ∃ i j : Nat, i < cntX ∧ j < cntY ∧
        Gpl.pointInBin core cntX cntY i j x y) ∧
    (∀ (i j i' j' : Nat) (x y : ℚ), Gpl.pointInBin core cntX cntY i j x y →
      Gpl.pointInBin core cntX cntY i' j' x y → i = i' ∧ j = j') := by
  have hxQ : ((cntX : ℚ)) ≠ 0 := Nat.cast_ne_zero.mpr hcntx
  have hyQ : ((cntY : ℚ)) ≠ 0 := Nat.cast_ne_zero.mpr hcnty
  have hwx : 0 < Gpl.binW core cntX := by
    unfold Gpl.binW
    exact div_pos (by linarith) (lt_of_le_of_ne (by positivity) (Ne.symm hxQ))
  have hwy : 0 < Gpl.binH core cntY := by
    unfold Gpl.binH
    exact div_pos (by linarith) (lt_of_le_of_ne (by positivity) (Ne.symm hyQ))
  refine ⟨?_, ?_, ?_⟩
  · unfold Gpl.binGridTotalArea Gpl.binArea Gpl.binW Gpl.binH
      Gpl.coreRectArea
    simp only [Finset.sum_const, Finset.card_range, nsmul_eq_mul]
    field_simp
    ring
  · intro x y hx1 hx2 hy1 hy2
    obtain ⟨i, hi, hia, hib⟩ :=
      interval_index_exists core.lx core.ux cntX hcntx hcx x hx1 hx2
    obtain ⟨j, hj, hja, hjb⟩ :=
      interval_index_exists core.ly core.uy cntY hcnty hcy y hy1 hy2
    exact ⟨i, j, hi, hj, ⟨hia, hib⟩, ⟨hja, hjb⟩⟩
  · intro i j i' j' x y h h'
    obtain ⟨⟨p1, p2⟩, p3, p4⟩ := h
    obtain ⟨⟨q1, q2⟩, q3, q4⟩ := h'
    exact ⟨interval_index_unique core.lx (Gpl.binW core cntX) hwx i i' x
        p1 p2 q1 q2,
      interval_index_unique core.ly (Gpl.binH core cntY) hwy j j' y
        p3 p4 q3 q4⟩

/-- Witness for C9: a 2×2 grid over the sample 4×4 core area. -/
theorem bin_grid_tiles_core_witness :
    Gpl.binGridTotalArea Gpl.sampleCore 2 2 =
      Gpl.coreRectArea Gpl.sampleCore ∧
    (∀ x y : ℚ, Gpl.sampleCore.lx ≤ x → x < Gpl.sampleCore.ux →
      Gpl.sampleCore.ly ≤ y → y < Gpl.sampleCore.uy →
      ∃ i j : Nat, i < 2 ∧ j < 2 ∧
        Gpl.pointInBin Gpl.sampleCore 2 2 i j x y) ∧
    (∀ (i j i' j' : Nat) (x y : ℚ),
      Gpl.pointInBin Gpl.sampleCore 2 2 i j x y →
      Gpl.pointInBin Gpl.sampleCore 2 2 i' j' x y → i = i' ∧ j = j') :=
  bin_grid_tiles_core Gpl.sampleCore 2 2 (by decide) (by decide)
    (by norm_num [Gpl.sampleCore]) (by norm_num [Gpl.sampleCore])
